import Mathlib

/-!
Shallow embedding of `src/src/lib.rs` (crate `reberu`), a minimal append-only
key-value store.  Bytes are modelled as `Nat` (44 is the separator `,`, 10 is
the terminator `\n`), keys and values as `List Nat`.

The Rust `Database` holds three handles obtained by `File::try_clone`, which
duplicates the file descriptor: `file`, the `BufReader` inside `reader`, and
the `BufWriter` inside `writer` all share ONE underlying file offset
("Reads, writes, and seeks will affect both `File` instances simultaneously").
The state therefore carries a single shared cursor `pos`.  The `BufReader`
additionally keeps an internal buffer of bytes it has read but not yet handed
out; an external `seek` on the shared descriptor does not invalidate that
buffer, so the buffer is part of the observable state (`buf`).  The
`BufWriter` is flushed before anything observable in every operation, so it
needs no persistent state.  `HashMap` is modelled as an association list; for
`get`/`has`/`put`/`delete` only its lookup/insert/remove semantics are used.
-/

/-- The crate's public error enum (`src/src/lib.rs` lines 1-4).  Its only
constructor is `KeyNotFound`; the source defines no I/O error variant. -/
inductive Error where
  | KeyNotFound
deriving DecidableEq

deriving instance DecidableEq for Except

/-- State of a `Database`: the bytes of the log file, the file offset shared
by the three cloned descriptors, the unconsumed internal buffer of the
`BufReader`, and the in-memory index `idxs : HashMap<Vec<u8>, u64>` as an
association list from key to value-start offset. -/
structure Database where
  file : List Nat
  pos : Nat
  buf : List Nat
  idxs : List (List Nat × Nat)
deriving DecidableEq

/-- `HashMap::get`: the offset stored for a key, if any. -/
def idxLookup : List (List Nat × Nat) → List Nat → Option Nat
  | [], _ => none
  | e :: rest, key => if e.1 = key then some e.2 else idxLookup rest key

/-- `HashMap::insert`: overwrite the entry for the key in place if present,
otherwise append a new entry at the end. -/
def idxInsert : List (List Nat × Nat) → List Nat → Nat → List (List Nat × Nat)
  | [], key, off => [(key, off)]
  | e :: rest, key, off =>
    if e.1 = key then (e.1, off) :: rest else e :: idxInsert rest key off

/-- `HashMap::remove`: drop the entry for the key if present.  A `HashMap`
never holds two entries for one key, so on the association lists that
represent one (no duplicate keys) removing every match is the same as
removing the single one. -/
def idxRemove : List (List Nat × Nat) → List Nat → List (List Nat × Nat)
  | [], _ => []
  | e :: rest, key => if e.1 = key then idxRemove rest key else e :: idxRemove rest key

/-- A positioned write on the file descriptor: overwrite bytes of `file`
starting at offset `p` with `data`, zero-padding if `p` is past end of file,
extending the file as needed.  The file never shrinks. -/
def writeAt (file : List Nat) (p : Nat) (data : List Nat) : List Nat :=
  file.take p ++ List.replicate (p - file.length) 0 ++ data ++
    file.drop (p + data.length)

/-- Default capacity of `std::io::BufReader`, 8192 bytes. -/
def bufCap : Nat := 8192

/-- `BufRead::read_until(b'\n')` on the shared descriptor: repeatedly
`fill_buf` (serve the existing internal buffer if non-empty, otherwise read up
to `bufCap` bytes from the file at the shared offset, advancing it), scan the
available bytes for 10, consume through the delimiter when found, consume
everything and loop when not, stop at end of file.  Returns the bytes read
(delimiter included when found), the remaining internal buffer, and the new
shared offset.  Fuel-indexed for termination; `read_until` supplies ample
fuel. -/
def readUntilAux (file : List Nat) : Nat → List Nat → List Nat → Nat →
    List Nat × List Nat × Nat
  | 0, buf, acc, p => (acc, buf, p)
  | fuel+1, buf, acc, p =>
    let fb := if buf.isEmpty then
        (let chunk := (file.drop p).take bufCap; (chunk, p + chunk.length))
      else (buf, p)
    if fb.1.isEmpty then (acc, [], fb.2)
    else
      match (fb.1).findIdx? (fun b => b == 10) with
      | some i => (acc ++ (fb.1).take (i+1), (fb.1).drop (i+1), fb.2)
      | none => readUntilAux file fuel [] (acc ++ fb.1) fb.2

/-- `read_until` with enough fuel: at most `buf.length + file.length` bytes
can ever be served, and every recursive call consumes at least one. -/
def read_until (file buf : List Nat) (p : Nat) : List Nat × List Nat × Nat :=
  readUntilAux file (buf.length + file.length + 2) buf [] p

/-- `Database::new(filename, truncate)` (lines 26-41): opens the file with
`truncate` as given, never rebuilds the index.  `existing` is whatever the
file at that path already contains.  All cloned descriptors start at offset
0 and the reader buffer starts empty. -/
def Database.new (existing : List Nat) (truncate : Bool) : Database :=
  { file := if truncate then [] else existing
    pos := 0
    buf := []
    idxs := [] }

/-- `KV::get` (lines 70-81): look the key up in the index; absent keys fail
with `KeyNotFound`.  On a hit, seek the shared descriptor to the stored
offset and `read_until(b'\n')` through the `BufReader`, then `Vec::pop` the
last byte off the result.  The seek and read mutate the shared offset and the
reader buffer through `RefCell`, so a new state is returned. -/
def Database.get (db : Database) (key : List Nat) :
    Except Error (List Nat) × Database :=
  match idxLookup db.idxs key with
  | none => (Except.error Error.KeyNotFound, db)
  | some idx =>
    let r := read_until db.file db.buf idx
    (Except.ok r.1.dropLast, { db with buf := r.2.1, pos := r.2.2 })

/-- `KV::has` (lines 82-84): `Ok(self.idxs.contains_key(key))`.  It takes
`&self`, touches no `RefCell`, performs no file access, and always returns
`Ok`. -/
def Database.has (db : Database) (key : List Nat) : Except Error Bool :=
  Except.ok (idxLookup db.idxs key).isSome

/-- `KV::put` (lines 85-94): write `key` then `,` through the `BufWriter` and
flush (one contiguous write at the shared offset), record
`file.stream_position()` — the shared offset, now just past the separator —
in the index, then write `value` then `\n` and flush.  Always returns
`Ok(())` (every I/O `Result` inside is `unwrap`ped). -/
def Database.put (db : Database) (key value : List Nat) :
    Except Error Unit × Database :=
  let file1 := writeAt db.file db.pos (key ++ [44])
  let off := db.pos + key.length + 1
  let idxs1 := idxInsert db.idxs key off
  let file2 := writeAt file1 off (value ++ [10])
  (Except.ok (),
    { db with file := file2, pos := off + value.length + 1, idxs := idxs1 })

/-- `KV::delete` (lines 95-98): remove the key from the index, touch nothing
else, return `Ok(())` unconditionally. -/
def Database.delete (db : Database) (key : List Nat) :
    Except Error Unit × Database :=
  (Except.ok (), { db with idxs := idxRemove db.idxs key })

/-- Outcome of a `put` whose underlying I/O may fail: either the normal
return, or a Rust panic (the source `unwrap`s every I/O `Result`), recorded
together with the state at the moment of the panic. -/
inductive PutOutcome where
  | ok (db : Database)
  | panicked (db : Database)
deriving DecidableEq

/-- `KV::put` with an injected I/O failure.  The fallible steps of the source
in order: 0 `write_all(key)`, 1 `write_all(b",")` (both only buffer),
2 `flush()`, 3 `stream_position()`, 4 `write_all(value)`, 5 `write_all(b"\n")`,
6 `flush()`.  `failAt = some n` makes step `n` fail: the `unwrap` panics
there, leaving the state built by the steps already completed — in
particular the index insert happens in the same statement as step 3, before
the value bytes are written. -/
def Database.putF (db : Database) (key value : List Nat) (failAt : Option Nat) :
    PutOutcome :=
  match failAt with
  | some 0 | some 1 | some 2 => PutOutcome.panicked db
  | some 3 => PutOutcome.panicked
      { db with file := writeAt db.file db.pos (key ++ [44])
                pos := db.pos + key.length + 1 }
  | some 4 | some 5 | some 6 => PutOutcome.panicked
      { db with file := writeAt db.file db.pos (key ++ [44])
                pos := db.pos + key.length + 1
                idxs := idxInsert db.idxs key (db.pos + key.length + 1) }
  | _ => PutOutcome.ok (db.put key value).2

/-- Modelled from the spec: `read_value_at(offset)` — "seeks to `offset`,
reads forward until (and excluding) the next `\n`, returns those bytes as the
value".  The source's iterator (`DBIterator`, `IntoIterator for Database`)
is commented out, so value reading during iteration is taken from the spec's
words rather than from compiled code. -/
def readValueAt (file : List Nat) (off : Nat) : List Nat :=
  (file.drop off).takeWhile (fun b => b != 10)

/-- Modelled from the spec: iteration — "for each index entry in order,
performs a `read_value_at`", yielding `(key, value)` pairs in insertion
order.  Missing from the compiled source (`into_iterator` exists only as a
commented-out block, and the live index is a `HashMap` whose iteration order
is unspecified); the insertion-ordered association list `idxs` realises the
spec's order-preserving index. -/
def Database.iterate (db : Database) : List (List Nat × List Nat) :=
  db.idxs.map (fun e => (e.1, readValueAt db.file e.2))

/-- Fresh engine on an empty path, as in the crate's own `test_full`. -/
def dbT0 : Database := Database.new [] true

/-- After `put(b"a", b"1")`: file `a,1\n`, index `a -> 2`. -/
def dbT1 : Database := (dbT0.put [97] [49]).2

/-- After `put(b"b", b"2")`: file `a,1\nb,2\n`, index adds `b -> 6`. -/
def dbT2 : Database := (dbT1.put [98] [50]).2

/-- After `get(b"a")`: the `BufReader` filled from offset 2 to end of file
and consumed only `1\n`, so its buffer still holds `b,2\n` and the shared
offset sits at end of file. -/
def dbT3 : Database := (dbT2.get [97]).2

/-! Helper lemmas about the index and positioned writes. -/

theorem pad_length (f : List Nat) (p : Nat) :
    (f.take p ++ List.replicate (p - f.length) 0).length = p := by
  simp [List.length_append, List.length_take, List.length_replicate]
  omega

theorem idxLookup_idxInsert_self (l : List (List Nat × Nat)) (k : List Nat)
    (off : Nat) : idxLookup (idxInsert l k off) k = some off := by
  induction l with
  | nil => simp [idxInsert, idxLookup]
  | cons e rest ih =>
    by_cases h : e.1 = k
    · simp [idxInsert, idxLookup, h]
    · simp [idxInsert, idxLookup, h, ih]

theorem idxLookup_idxRemove_self (l : List (List Nat × Nat)) (k : List Nat) :
    idxLookup (idxRemove l k) k = none := by
  induction l with
  | nil => rfl
  | cons e rest ih =>
    by_cases h : e.1 = k
    · simpa [idxRemove, h] using ih
    · simp [idxRemove, idxLookup, h, ih]

theorem idxInsert_keys_of_mem (l : List (List Nat × Nat)) (k : List Nat)
    (off : Nat) (h : k ∈ l.map Prod.fst) :
    (idxInsert l k off).map Prod.fst = l.map Prod.fst := by
  induction l with
  | nil => simp at h
  | cons e rest ih =>
    by_cases he : e.1 = k
    · simp [idxInsert, he]
    · rw [List.map_cons] at h
      rcases List.mem_cons.1 h with h1 | h1
      · exact absurd h1.symm he
      · simp [idxInsert, he, ih h1]

theorem writeAt_of_prefix (P tail d2 : List Nat) :
    writeAt (P ++ tail) P.length d2 = P ++ d2 ++ tail.drop d2.length := by
  have h0 : P.length - (P ++ tail).length = 0 := by
    simp [List.length_append]
  simp [writeAt, List.take_left, List.drop_append, h0, List.append_assoc]

theorem writeAt_writeAt (f : List Nat) (p : Nat) (d1 d2 : List Nat) :
    writeAt (writeAt f p d1) (p + d1.length) d2 = writeAt f p (d1 ++ d2) := by
  have hp := pad_length f p
  have hg : writeAt f p d1
      = ((f.take p ++ List.replicate (p - f.length) 0) ++ d1)
        ++ f.drop (p + d1.length) := by
    simp [writeAt, List.append_assoc]
  have hq : p + d1.length
      = ((f.take p ++ List.replicate (p - f.length) 0) ++ d1).length := by
    simp only [List.length_append] at hp ⊢
    omega
  rw [hg, hq, writeAt_of_prefix, List.drop_drop]
  simp [writeAt, List.append_assoc, Nat.add_assoc]
  congr 1
  omega

theorem writeAt_slice (f : List Nat) (p : Nat) (k v : List Nat) :
    ((writeAt f p (k ++ [44] ++ v ++ [10])).drop (p + k.length + 1)).take
      (v.length + 1) = v ++ [10] := by
  have hp := pad_length f p
  have hQ : ((f.take p ++ List.replicate (p - f.length) 0) ++ (k ++ [44])).length
      = p + k.length + 1 := by
    simp only [List.length_append] at hp ⊢
    simp [List.length_append]
    omega
  have hsplit : writeAt f p (k ++ [44] ++ v ++ [10])
      = ((f.take p ++ List.replicate (p - f.length) 0) ++ (k ++ [44]))
        ++ ((v ++ [10]) ++ f.drop (p + (k ++ [44] ++ v ++ [10]).length)) := by
    simp [writeAt, List.append_assoc]
  rw [hsplit, List.drop_left' hQ,
    List.take_left' (show ((v : List Nat) ++ [10]).length = v.length + 1 by simp)]

/-- Claim C1: the spec's round-trip property — for every non-empty key and
value free of `,` and `\n`, `put(k, v)` immediately followed by `get(k)`
returns exactly `v` — fails on the code.  Evaluated at the failing input
(fresh engine; `put(a,1)`, `put(b,2)`, `get(a)`, then `put(c,3)` and
`get(c)`, all keys and values non-empty and separator-free): the `get(a)`
left `b,2\n` in the `BufReader` buffer, and `get(c)` serves those stale
bytes instead of reading at the offset it just seeked to, returning `b,2`
rather than `3`. -/
theorem put_get_roundtrip_fails :
    (((dbT3.put [99] [51]).2.get [99]).1 = Except.ok [98, 44, 50])
    ∧ ((dbT3.put [99] [51]).2.get [99]).1 ≠ Except.ok [51] := by
  constructor
  · decide
  · decide

/-- Claim C2: the index entry is indeed overwritten to the most recent
write's offset, but `put(k, v1); put(k, v2); get(k)` does not always return
`v2`: at the failing input (fresh engine; `put(a,1)`, `put(b,2)`, `get(a)`,
then `put(c,3)`, `put(c,4)`, `get(c)`) the index maps `c` to offset 14, the
start of `4\n`, yet `get(c)` serves the `BufReader`'s stale buffer and
returns `b,2` instead of `4`. -/
theorem overwrite_get_fails :
    (idxLookup (((dbT3.put [99] [51]).2.put [99] [52]).2).idxs [99] = some 14)
    ∧ (((((dbT3.put [99] [51]).2.put [99] [52]).2).get [99]).1
        = Except.ok [98, 44, 50])
    ∧ (((((dbT3.put [99] [51]).2.put [99] [52]).2).get [99]).1
        ≠ Except.ok [52]) := by
  refine ⟨by decide, by decide, by decide⟩

/-- Claim C3: every `put(key, value)` writes exactly the bytes of `key`,
then `,` (44), then `value`, then `\n` (10), contiguously in that order
starting at the shared cursor, and the offset recorded in the index for
`key` is the position of the value's first byte — immediately after the
separator: the bytes at the recorded offset are precisely `value` followed
by the terminator. -/
theorem put_writes_record (db : Database) (k v : List Nat) :
    ((db.put k v).2.file = writeAt db.file db.pos (k ++ [44] ++ v ++ [10]))
    ∧ (idxLookup (db.put k v).2.idxs k = some (db.pos + k.length + 1))
    ∧ (((db.put k v).2.file.drop (db.pos + k.length + 1)).take (v.length + 1)
        = v ++ [10]) := by
  have hfile : (db.put k v).2.file
      = writeAt db.file db.pos (k ++ [44] ++ v ++ [10]) := by
    show writeAt (writeAt db.file db.pos (k ++ [44])) (db.pos + k.length + 1)
        (v ++ [10]) = _
    have h1 : db.pos + k.length + 1 = db.pos + (k ++ [44]).length := by
      simp [List.length_append, Nat.add_assoc]
    rw [h1, writeAt_writeAt]
    simp [List.append_assoc]
  refine ⟨hfile, ?_, ?_⟩
  · exact idxLookup_idxInsert_self db.idxs k (db.pos + k.length + 1)
  · rw [hfile]
    exact writeAt_slice db.file db.pos k v

/-- Claim C4: the claim that no operation ever overwrites previously written
bytes and that `put` always appends at end of file fails on the code.
Evaluated at the failing input (fresh engine; `put(a,1)`, `put(b,2)`,
`get(a)`, `get(b)`, `put(c,3)`): the second `get` was served entirely from
the `BufReader`'s stale buffer, so the shared cursor stays at offset 6 where
the seek put it, and the following `put` writes `c,` over the previously
written bytes `2\n` at offsets 6-7 — before: `a,1\nb,2\n`, after:
`a,1\nb,c,3\n`. -/
theorem put_overwrites_bytes :
    (dbT2.file = [97, 44, 49, 10, 98, 44, 50, 10])
    ∧ (dbT2.file.get? 6 = some 50)
    ∧ (((dbT3.get [98]).2.put [99] [51]).2.file
        = [97, 44, 49, 10, 98, 44, 99, 44, 51, 10])
    ∧ ((((dbT3.get [98]).2.put [99] [51]).2.file.get? 6) = some 99) := by
  refine ⟨by decide, by decide, by decide, by decide⟩

/-- Claim C5: iterating yields one pair per live key in first-insertion
order — inserting `1 -> one`, `2 -> two`, `3 -> three` and iterating yields
exactly those three pairs in that order — and an existing key's position in
the order is unchanged by a later overwrite of its value (the key sequence
of the index is invariant under `idxInsert` of a present key). -/
theorem iterate_insertion_order :
    ((((dbT0.put [49] [111, 110, 101]).2.put [50] [116, 119, 111]).2.put
        [51] [116, 104, 114, 101, 101]).2.iterate
      = [([49], [111, 110, 101]), ([50], [116, 119, 111]),
         ([51], [116, 104, 114, 101, 101])])
    ∧ ∀ (l : List (List Nat × Nat)) (k : List Nat) (off : Nat),
        k ∈ l.map Prod.fst →
        (idxInsert l k off).map Prod.fst = l.map Prod.fst := by
  refine ⟨by decide, ?_⟩
  intro l k off h
  exact idxInsert_keys_of_mem l k off h

/-- Witness for C5 at a concrete input: the key `a` is present in the
one-entry index, and overwriting it leaves the key order unchanged. -/
theorem iterate_insertion_order_witness :
    (idxInsert [([97], 2)] [97] 99).map Prod.fst = [[97]] :=
  iterate_insertion_order.2 [([97], 2)] [97] 99 (by decide)

/-- Claim C6: for every state and key, `has` answers `Ok true` exactly when
`get` does not fail with `KeyNotFound`; `has` always returns `Ok` of the
pure index query, and it reads nothing but the index — any two states with
the same index agree on `has`, whatever their files, cursors or buffers. -/
theorem has_iff_get (db : Database) (key : List Nat) :
    ((db.has key = Except.ok true)
      ↔ ((db.get key).1 ≠ Except.error Error.KeyNotFound))
    ∧ (db.has key = Except.ok (idxLookup db.idxs key).isSome)
    ∧ (∀ db2 : Database, db2.idxs = db.idxs → db2.has key = db.has key) := by
  refine ⟨?_, rfl, ?_⟩
  · cases h : idxLookup db.idxs key with
    | none => simp [Database.has, Database.get, h]
    | some idx => simp [Database.has, Database.get, h]
  · intro db2 h2
    simp [Database.has, h2]

/-- Witness for C6 at concrete inputs: on the store holding only key `a`,
the equivalence holds, and a state with the same (empty) index but a
different file and a fresh empty store agree on `has`. -/
theorem has_iff_get_witness :
    ((dbT1.has [97] = Except.ok true)
      ↔ ((dbT1.get [97]).1 ≠ Except.error Error.KeyNotFound))
    ∧ (Database.new [0, 1, 2] false).has [97] = dbT0.has [97] :=
  ⟨(has_iff_get dbT1 [97]).1,
   (has_iff_get dbT0 [97]).2.2 (Database.new [0, 1, 2] false) rfl⟩

/-- Claim C8: `delete` always returns `Ok(())` — also on absent keys —
and afterwards `has` is `false` and `get` fails with `KeyNotFound`, for
every prior state; a second `delete` of the same key also returns `Ok`. -/
theorem delete_idempotent (db : Database) (key : List Nat) :
    ((db.delete key).1 = Except.ok ())
    ∧ ((db.delete key).2.has key = Except.ok false)
    ∧ (((db.delete key).2.get key).1 = Except.error Error.KeyNotFound)
    ∧ (((db.delete key).2.delete key).1 = Except.ok ()) := by
  refine ⟨rfl, ?_, ?_, rfl⟩
  · simp [Database.delete, Database.has, idxLookup_idxRemove_self]
  · simp [Database.delete, Database.get, idxLookup_idxRemove_self]

/-- Claim C9: on a freshly opened engine every key is absent — `has` is
`false` and `get` fails with `KeyNotFound` — both with `truncate = true`
(whatever an earlier engine wrote to the path) and with `truncate = false`
over arbitrary pre-existing bytes, whose records stay invisible because the
index starts empty. -/
theorem fresh_engine_absent (prior key : List Nat) :
    ((Database.new prior true).has key = Except.ok false)
    ∧ (((Database.new prior true).get key).1 = Except.error Error.KeyNotFound)
    ∧ ((Database.new prior false).has key = Except.ok false)
    ∧ (((Database.new prior false).get key).1
        = Except.error Error.KeyNotFound) := by
  refine ⟨rfl, rfl, rfl, rfl⟩

/-- Claim C10: the claim that reads are pure and repeatable fails on the
code.  Evaluated at the failing input (fresh engine; `put(a,1)`,
`put(b,2)`): the first `get(a)` correctly returns `1` but leaves `b,2\n` in
the `BufReader`; the immediately repeated `get(a)` returns `b,2`, and
`get(b)` after `get(a)` returns `b,2` where `get(b)` alone returns `2` — an
earlier `get` perturbs a later one. -/
theorem get_not_repeatable :
    ((dbT2.get [97]).1 = Except.ok [49])
    ∧ (((dbT2.get [97]).2.get [97]).1 = Except.ok [98, 44, 50])
    ∧ ((dbT2.get [98]).1 = Except.ok [50])
    ∧ (((dbT2.get [97]).2.get [98]).1 = Except.ok [98, 44, 50]) := by
  refine ⟨by decide, by decide, by decide, by decide⟩

/-- Claim C7: evaluated at the failing input — a fresh engine, `put(a, 1)`
where the OS write of the value bytes (step 4) fails.  The source has
already flushed `a,` and inserted `a -> 2` into the index in the statement
before the failing write, and every I/O `Result` is `unwrap`ped, so the
outcome is a panic, not an error return: the panic-time state has file
`a,` of length 2 and an index entry for `a` pointing at offset 2 — the end
of the file, where no value byte exists.  The index was not left unchanged
(it was empty before), contradicting the claim. -/
theorem put_failure_panics_with_index_updated :
    (Database.putF dbT0 [97] [49] (some 4)
      = PutOutcome.panicked
          { file := [97, 44], pos := 2, buf := [], idxs := [([97], 2)] })
    ∧ (idxLookup [([97], 2)] [97] = some 2)
    ∧ (([97, 44] : List Nat).length = 2)
    ∧ (dbT0.idxs = []) := by
  refine ⟨by decide, by decide, by decide, by decide⟩
